import Mathlib

/-!
# Verification of The Pizza Dough Formula core

A shallow embedding of the repository's core logic, with proofs about it:

* `src/scripts/calculator/engine.js` — the `DoughCalculator` class
  (baker's-percentage recipe calculation, single-stage and two-stage);
* `src/scripts/calculator/presets.js` — the immutable style catalog;
* `src/scripts/features/shareRecipe.js` — the recipe URL codec;
* `src/scripts/features/emergencyTimer.js` — the countdown timer's
  persistence-aware load logic.

JavaScript numbers are modelled as rationals (`ℚ`); all example values in
play are small decimal fractions, exactly representable.  `Math.round`
rounds half toward positive infinity, i.e. `⌊x + 1/2⌋`.
-/

namespace PizzaDough

/-- JavaScript `Math.round`: round half toward positive infinity. -/
def jround (q : ℚ) : ℤ := ⌊q + 1/2⌋

/-- `DoughCalculator.round(value, 1)` from `engine.js`:
`Math.round(value * 10) / 10` (one decimal place). -/
def jround1 (q : ℚ) : ℚ := (jround (q * 10) : ℚ) / 10

/-- The `preFermentType` enumeration: `'poolish' | 'biga'`. -/
inductive PreFermentType where
  | poolish
  | biga
deriving DecidableEq

/-- The string stored for a `PreFermentType` in the URL codec. -/
def PreFermentType.toStr : PreFermentType → String
  | .poolish => "poolish"
  | .biga => "biga"

/-- The calculator's input value type (`RecipeParameters`): the fields the
`DoughCalculator` constructor reads from its `options` object, all present
(the constructor fills every one, by option or default). -/
structure RecipeParams where
  numBalls : ℚ
  ballWeight : ℚ
  hydration : ℚ
  salt : ℚ
  yeast : ℚ
  oil : ℚ
  sugar : ℚ
  humidityAdjust : Bool
  usePreFerment : Bool
  preFermentType : PreFermentType
  preFermentFlourPercent : ℚ
  bigaHydration : ℚ
deriving DecidableEq

/-- `get totalDoughWeight()`: `numBalls * ballWeight`. -/
def totalDoughWeight (p : RecipeParams) : ℚ := p.numBalls * p.ballWeight

/-- `get effectiveHydration()`: reduce hydration by 2.5 points when
`humidityAdjust` is set. -/
def effectiveHydration (p : RecipeParams) : ℚ :=
  if p.humidityAdjust then p.hydration - 1/40 else p.hydration

/-- The divisor in `get flourWeight()`:
`1 + effectiveHydration + salt + yeast + oil + sugar`. -/
def flourDenominator (p : RecipeParams) : ℚ :=
  1 + effectiveHydration p + p.salt + p.yeast + p.oil + p.sugar

/-- `get flourWeight()`: `totalDoughWeight / totalPercentage`.  The source
divides unconditionally, with no validity check on the divisor. -/
def flourWeight (p : RecipeParams) : ℚ :=
  totalDoughWeight p / flourDenominator p

/-- `get waterWeight()`: `flourWeight * effectiveHydration`. -/
def waterWeight (p : RecipeParams) : ℚ :=
  flourWeight p * effectiveHydration p

/-- Single-stage `ingredients` record: flour, water, oil, sugar are rounded
to whole grams (`ℤ`), salt and yeast to one decimal place (`ℚ`). -/
structure Ingredients where
  flour : ℤ
  water : ℤ
  salt : ℚ
  yeast : ℚ
  oil : ℤ
  sugar : ℤ
deriving DecidableEq

/-- Two-stage `preFerment` record of the result. -/
structure PreFermentOut where
  type : PreFermentType
  flour : ℤ
  water : ℤ
  yeast : ℚ
  hydrationPct : ℚ
  flourPercentPct : ℚ
deriving DecidableEq

/-- Two-stage `finalDough.ingredients` record of the result. -/
structure FinalDoughOut where
  flour : ℤ
  water : ℤ
  salt : ℚ
  yeast : ℚ
  oil : ℤ
  sugar : ℤ
deriving DecidableEq

/-- `SingleStageResult | TwoStageResult`: the tagged union returned by
`calculate()` (the echoed `percentages` object, pure presentation data
recomputable from the input, is not carried). -/
inductive CalcResult where
  | single (ingredients : Ingredients) (totalWeight : ℤ)
  | twoStage (preFerment : PreFermentOut) (finalDough : FinalDoughOut) (totalWeight : ℤ)
deriving DecidableEq

/-- The `preFermentHydration` local of `calculateWithPreFerment`:
`preFermentType === 'poolish' ? 1.0 : bigaHydration`. -/
def preFermentHydration (p : RecipeParams) : ℚ :=
  if p.preFermentType = PreFermentType.poolish then 1 else p.bigaHydration

/-- `calculateWithPreFerment(totalFlour, totalWater, salt, yeast, oil, sugar)`:
the two-stage derivation, mirroring the source locals. -/
def calculateWithPreFerment (p : RecipeParams)
    (totalFlour totalWater salt yeast oil sugar : ℚ) : CalcResult :=
  let preFermentFlour := totalFlour * p.preFermentFlourPercent
  let preFermentWater := preFermentFlour * preFermentHydration p
  let preFermentYeast := yeast
  let finalFlour := totalFlour - preFermentFlour
  let finalWater := totalWater - preFermentWater
  CalcResult.twoStage
    { type := p.preFermentType
      flour := jround preFermentFlour
      water := jround preFermentWater
      yeast := jround1 preFermentYeast
      hydrationPct := preFermentHydration p * 100
      flourPercentPct := p.preFermentFlourPercent * 100 }
    { flour := jround finalFlour
      water := jround finalWater
      salt := jround1 salt
      yeast := 0
      oil := jround oil
      sugar := jround sugar }
    (jround (totalDoughWeight p))

/-- `calculate()`: computes the unrounded weights, then returns the
single-stage result, or delegates to `calculateWithPreFerment`. -/
def calculate (p : RecipeParams) : CalcResult :=
  let flour := flourWeight p
  let water := waterWeight p
  let salt := flour * p.salt
  let yeast := flour * p.yeast
  let oil := flour * p.oil
  let sugar := flour * p.sugar
  if p.usePreFerment = false then
    CalcResult.single
      { flour := jround flour
        water := jround water
        salt := jround1 salt
        yeast := jround1 yeast
        oil := jround oil
        sugar := jround sugar }
      (jround (totalDoughWeight p))
  else
    calculateWithPreFerment p flour water salt yeast oil sugar

/-- The single-stage flour weight of a result, when it is single-stage. -/
def CalcResult.singleFlour : CalcResult → Option ℤ
  | .single ing _ => some ing.flour
  | _ => none

/-- The single-stage water weight of a result, when it is single-stage. -/
def CalcResult.singleWater : CalcResult → Option ℤ
  | .single ing _ => some ing.water
  | _ => none

/-- The pre-ferment yeast of a result, when it is two-stage. -/
def CalcResult.preFermentYeast : CalcResult → Option ℚ
  | .twoStage pf _ _ => some pf.yeast
  | _ => none

/-- The final-dough yeast of a result, when it is two-stage. -/
def CalcResult.finalDoughYeast : CalcResult → Option ℚ
  | .twoStage _ fd _ => some fd.yeast
  | _ => none

/-! ## Style presets (`presets.js`)

Each catalog entry's `defaults` object is partial: only `poolishBiga` sets
the pre-ferment fields, and `numBalls` is never set.  Fields the literal
does not set are modelled as `Option`/defaulted, matching a JS object that
lacks the property. -/

/-- A preset's `defaults` object (a partial `RecipeParameters`). -/
structure StyleDefaults where
  ballWeight : ℚ
  hydration : ℚ
  salt : ℚ
  yeast : ℚ
  oil : ℚ
  sugar : ℚ
  usePreFerment : Bool := false
  preFermentTypeStr : Option String := none
  preFermentFlourPercent : Option ℚ := none
deriving DecidableEq

/-- A catalog entry: identifier, display name, and calculator defaults
(the descriptive metadata strings are presentation-only and not modelled). -/
structure StylePreset where
  id : String
  name : String
  defaults : StyleDefaults
deriving DecidableEq

/-- `PIZZA_STYLES.neapolitan`. -/
def neapolitanStyle : StylePreset :=
  { id := "neapolitan", name := "Neapolitan"
    defaults := { ballWeight := 250, hydration := 62/100, salt := 25/1000
                  yeast := 3/1000, oil := 0, sugar := 0 } }

/-- `PIZZA_STYLES.newYork`. -/
def newYorkStyle : StylePreset :=
  { id := "newYork", name := "New York"
    defaults := { ballWeight := 280, hydration := 65/100, salt := 2/100
                  yeast := 4/1000, oil := 3/100, sugar := 2/100 } }

/-- `PIZZA_STYLES.detroit`. -/
def detroitStyle : StylePreset :=
  { id := "detroit", name := "Detroit"
    defaults := { ballWeight := 400, hydration := 72/100, salt := 2/100
                  yeast := 5/1000, oil := 4/100, sugar := 1/100 } }

/-- `PIZZA_STYLES.thinCrispy`. -/
def thinCrispyStyle : StylePreset :=
  { id := "thinCrispy", name := "Thin & Crispy"
    defaults := { ballWeight := 180, hydration := 55/100, salt := 2/100
                  yeast := 4/1000, oil := 2/100, sugar := 0 } }

/-- `PIZZA_STYLES.poolishBiga` — the only preset whose defaults enable the
pre-ferment. -/
def poolishBigaStyle : StylePreset :=
  { id := "poolishBiga", name := "Poolish/Biga"
    defaults := { ballWeight := 260, hydration := 65/100, salt := 25/1000
                  yeast := 2/1000, oil := 0, sugar := 0
                  usePreFerment := true
                  preFermentTypeStr := some "poolish"
                  preFermentFlourPercent := some (25/100) } }

/-- `PIZZA_STYLES.emergency`. -/
def emergencyStyle : StylePreset :=
  { id := "emergency", name := "Emergency (2hr)"
    defaults := { ballWeight := 250, hydration := 60/100, salt := 2/100
                  yeast := 1/100, oil := 2/100, sugar := 1/100 } }

/-- `PIZZA_STYLES.custom`. -/
def customStyle : StylePreset :=
  { id := "custom", name := "Custom"
    defaults := { ballWeight := 250, hydration := 65/100, salt := 2/100
                  yeast := 3/1000, oil := 0, sugar := 0 } }

/-- `getStyleIds()`: `Object.keys(PIZZA_STYLES)`, in literal order. -/
def getStyleIds : List String :=
  ["neapolitan", "newYork", "detroit", "thinCrispy", "poolishBiga",
   "emergency", "custom"]

/-- The own-property part of the lookup `PIZZA_STYLES[id]`: the preset
whose literal key is `id`, if any. -/
def ownStyle (id : String) : Option StylePreset :=
  if id = "neapolitan" then some neapolitanStyle
  else if id = "newYork" then some newYorkStyle
  else if id = "detroit" then some detroitStyle
  else if id = "thinCrispy" then some thinCrispyStyle
  else if id = "poolishBiga" then some poolishBigaStyle
  else if id = "emergency" then some emergencyStyle
  else if id = "custom" then some customStyle
  else none

/-- The property names a plain object literal inherits from
`Object.prototype`.  A bracket read with one of these keys and no matching
own key yields the inherited value — a function (or, for the `__proto__`
accessor, the prototype object), in every case truthy and without a
`defaults` property. -/
def objectPrototypeKeys : List String :=
  ["constructor", "hasOwnProperty", "isPrototypeOf", "propertyIsEnumerable",
   "toLocaleString", "toString", "valueOf", "__proto__", "__defineGetter__",
   "__defineSetter__", "__lookupGetter__", "__lookupSetter__"]

/-- What the JS property read `PIZZA_STYLES[id]` can produce: a catalog
entry (own property), a truthy value inherited from `Object.prototype`
(all such values are interchangeable for the callers here: truthy, no
`defaults` property), or `undefined`. -/
inductive StyleLookup where
  | preset (s : StylePreset)
  | inherited
  | undef
deriving DecidableEq

/-- `getStyleById(id)`: the bracket read `PIZZA_STYLES[id]` — own keys
first, then the `Object.prototype` chain, then `undefined`. -/
def getStyleById (id : String) : StyleLookup :=
  match ownStyle id with
  | some s => StyleLookup.preset s
  | none =>
    if id ∈ objectPrototypeKeys then StyleLookup.inherited
    else StyleLookup.undef

/-- What `getStyleDefaults` can return: a defaults record, or the empty
object produced by spreading `undefined`. -/
inductive DefaultsResult where
  | defaults (d : StyleDefaults)
  | emptyObj
deriving DecidableEq

/-- `getStyleDefaults(id)`:
`style ? { ...style.defaults } : { ...PIZZA_STYLES.custom.defaults }`.
A preset gives a copy of its defaults; a truthy inherited value takes the
first branch too, where `style.defaults` is `undefined` and the spread
yields the empty object; only `undefined` reaches the custom fallback. -/
def getStyleDefaults (id : String) : DefaultsResult :=
  match getStyleById id with
  | StyleLookup.preset s => DefaultsResult.defaults s.defaults
  | StyleLookup.inherited => DefaultsResult.emptyObj
  | StyleLookup.undef => DefaultsResult.defaults customStyle.defaults

/-! ## Recipe URL codec (`shareRecipe.js`)

`encodeRecipe` builds a `URLSearchParams` with short keys and returns
`baseUrl + '?' + params.toString()`; `decodeRecipe` recovers the parameter
map from a URL or query string and rebuilds a partial recipe object.  The
parameter map is modelled directly: each short key is a field, absent key
= `none`.  Numeric values are modelled by the number their decimal string
denotes — `toString`/`parseInt` on the canonical integer strings the
encoder writes is the identity, and `parseInt` applied to a non-integer
number's decimal string truncates toward zero at the decimal point. -/

/-- The parameter map (`URLSearchParams` content) of a share link.
`n`/`w` hold the raw number rendered by `toString`; `h`, `sa`, `y`, `o`,
`su`, `pfp` hold the `Math.round`-scaled integers the encoder writes;
`pf`, `pft`, `ha` hold raw strings. -/
structure EncodedParams where
  n : Option ℚ := none
  w : Option ℚ := none
  h : Option ℤ := none
  sa : Option ℤ := none
  y : Option ℤ := none
  o : Option ℤ := none
  su : Option ℤ := none
  pf : Option String := none
  pft : Option String := none
  pfp : Option ℤ := none
  ha : Option String := none
deriving DecidableEq

/-- `parseInt` applied to the decimal rendering of a number: truncation
toward zero (exact on integers). -/
def ratTrunc (q : ℚ) : ℤ := Int.tdiv q.num (q.den : ℤ)

/-- `encodeRecipe(recipe)`: the parameter map written for a full
`RecipeParameters` value.  `n`, `w`, `h`, `sa`, `y` are always set; `o` and
`su` only when positive; the three pre-ferment keys only when
`usePreFerment`; `ha` only when `humidityAdjust`.  (The engine's
`preFermentType` is always one of the two enum values, so the
`recipe.preFermentType || 'poolish'` fallback never fires here.) -/
def encodeRecipe (p : RecipeParams) : EncodedParams :=
  { n := some p.numBalls
    w := some p.ballWeight
    h := some (jround (p.hydration * 100))
    sa := some (jround (p.salt * 1000))
    y := some (jround (p.yeast * 1000))
    o := if 0 < p.oil then some (jround (p.oil * 100)) else none
    su := if 0 < p.sugar then some (jround (p.sugar * 100)) else none
    pf := if p.usePreFerment then some "1" else none
    pft := if p.usePreFerment then some p.preFermentType.toStr else none
    pfp := if p.usePreFerment then some (jround (p.preFermentFlourPercent * 100)) else none
    ha := if p.humidityAdjust then some "1" else none }

/-- The partial recipe object `decodeRecipe` returns: a field is `none`
when the source leaves the property unset.  The source never assigns
`bigaHydration` (no such key exists in `PARAM_MAP`), so reading that
property of the decoded object always yields `undefined`; the field is
kept to state round-trip properties and is always `none`. -/
structure DecodedRecipe where
  numBalls : Option ℤ := none
  ballWeight : Option ℤ := none
  hydration : Option ℚ := none
  salt : Option ℚ := none
  yeast : Option ℚ := none
  oil : Option ℚ := none
  sugar : Option ℚ := none
  usePreFerment : Bool := false
  preFermentTypeStr : Option String := none
  preFermentFlourPercent : Option ℚ := none
  humidityAdjust : Bool := false
  bigaHydration : Option ℚ := none
deriving DecidableEq

/-- The `pft` fallback inside the `pf === '1'` branch:
`params.get('pft') || 'poolish'` (absent or empty string falls back). -/
def pftOrPoolish : Option String → String
  | some s => if s = "" then "poolish" else s
  | none => "poolish"

/-- The body of `decodeRecipe` after the parameter map is in hand: rebuild
the partial recipe, dividing the scaled integers back down; the pre-ferment
keys are read only when `pf` is exactly `'1'`. -/
def decodeRecipeParams (ps : EncodedParams) : DecodedRecipe :=
  { numBalls := ps.n.map ratTrunc
    ballWeight := ps.w.map ratTrunc
    hydration := ps.h.map (fun k => (k : ℚ) / 100)
    salt := ps.sa.map (fun k => (k : ℚ) / 1000)
    yeast := ps.y.map (fun k => (k : ℚ) / 1000)
    oil := ps.o.map (fun k => (k : ℚ) / 100)
    sugar := ps.su.map (fun k => (k : ℚ) / 100)
    usePreFerment := ps.pf = some "1"
    preFermentTypeStr :=
      if ps.pf = some "1" then some (pftOrPoolish ps.pft) else none
    preFermentFlourPercent :=
      if ps.pf = some "1" then ps.pfp.map (fun k => (k : ℚ) / 100) else none
    humidityAdjust := ps.ha = some "1"
    bigaHydration := none }

/-- The three runtime shapes `decodeRecipe(input)` dispatches on: a string,
a `URLSearchParams` object, or anything else. -/
inductive DecodeInput where
  | str (s : String)
  | searchParams (ps : EncodedParams)
  | other

/-- One `key=value` piece of a query string. -/
def queryPiece (piece : String) : String × String :=
  match piece.splitOn "=" with
  | [] => ("", "")
  | k :: vs => (k, String.intercalate "=" vs)

/-- First value for a key, as `URLSearchParams.get`. -/
def getParam (l : List (String × String)) (k : String) : Option String :=
  (l.find? (fun kv => kv.fst = k)).map (fun kv => kv.snd)

/-- A non-empty string value parsed as an integer where the decoder will
apply `parseInt`.  (Where JS `parseInt` would yield `NaN` — stored as a
`NaN` field by the decoder — the model leaves the field absent; no claim
distinguishes the two, both being "not a usable number".) -/
def paramInt (l : List (String × String)) (k : String) : Option ℤ :=
  (getParam l k).bind (fun s => if s = "" then none else s.toInt?)

/-- Model of the platform `URLSearchParams(string)` constructor, which
never throws: split on `&` then `=` (a single leading `?` is ignored). -/
def parseQueryString (s : String) : EncodedParams :=
  let body := if s.startsWith "?" then s.drop 1 else s
  let l := (body.splitOn "&").map queryPiece
  { n := (paramInt l "n").map (fun k => (k : ℚ))
    w := (paramInt l "w").map (fun k => (k : ℚ))
    h := paramInt l "h"
    sa := paramInt l "sa"
    y := paramInt l "y"
    o := paramInt l "o"
    su := paramInt l "su"
    pf := getParam l "pf"
    pft := getParam l "pft"
    pfp := paramInt l "pfp"
    ha := getParam l "ha" }

/-- Model of the platform `new URL(string)` constructor: succeeds exactly
on absolute URLs (approximated as strings containing a scheme separator
`://`), in which case `url.searchParams` is the part after the first `?`;
otherwise it throws, modelled as `none`. -/
def parseAsURL (s : String) : Option EncodedParams :=
  match s.splitOn "://" with
  | [] => none
  | [_] => none
  | _ =>
    match s.splitOn "?" with
    | [] => some (parseQueryString "")
    | [_] => some (parseQueryString "")
    | _ :: rest => some (parseQueryString (String.intercalate "?" rest))

/-- `decodeRecipe(input)`: a string is tried as a URL, falling back to a
query string on failure; a `URLSearchParams` is used as is; anything else
returns `null` (`none`). -/
def decodeRecipe : DecodeInput → Option DecodedRecipe
  | .str s =>
    match parseAsURL s with
    | some ps => some (decodeRecipeParams ps)
    | none => some (decodeRecipeParams (parseQueryString s))
  | .searchParams ps => some (decodeRecipeParams ps)
  | .other => none

/-! ## Emergency timer persistence (`emergencyTimer.js`)

Time is wall-clock epoch milliseconds (`ℤ`).  The persisted snapshot is the
object `saveState` writes to the `'emergencyTimer'` key. -/

/-- The persisted snapshot `{remaining, isRunning, savedAt, duration}`. -/
structure TimerSnapshot where
  remaining : ℤ
  isRunning : Bool
  savedAt : ℤ
  duration : ℤ
deriving DecidableEq

/-- Everything observable about a constructor-time `loadState()` call: the
in-memory fields it leaves behind, the deferred actions it schedules, and
the persistent store afterwards.  The constructor initialises
`remaining = duration`, `isRunning = false` before calling `loadState`. -/
structure LoadOutcome where
  remaining : ℤ
  duration : ℤ
  isRunning : Bool
  pendingStart : Bool
  firedOnComplete : Bool
  playedBeep : Bool
  store : Option TimerSnapshot
deriving DecidableEq

/-- `loadState()` as called from the constructor, given the initial
duration, the persisted store, and the current wall clock.  On a running
snapshot it subtracts the elapsed time; if time remains it defers a
`start()`, otherwise it defers firing `onComplete` and the beep.  The
function only ever reads the store: no branch writes or clears it. -/
def loadState (initDuration : ℤ) (store : Option TimerSnapshot) (now : ℤ) :
    LoadOutcome :=
  match store with
  | none =>
    { remaining := initDuration, duration := initDuration, isRunning := false
      pendingStart := false, firedOnComplete := false, playedBeep := false
      store := none }
  | some st =>
    let newDuration := if st.duration ≠ 0 then st.duration else initDuration
    if st.isRunning then
      let elapsed := now - st.savedAt
      let rem := max 0 (st.remaining - elapsed)
      if 0 < rem then
        { remaining := rem, duration := newDuration, isRunning := false
          pendingStart := true, firedOnComplete := false, playedBeep := false
          store := store }
      else
        { remaining := 0, duration := newDuration, isRunning := false
          pendingStart := false, firedOnComplete := true, playedBeep := true
          store := store }
    else
      { remaining := st.remaining, duration := newDuration, isRunning := false
        pendingStart := false, firedOnComplete := false, playedBeep := false
        store := store }

/-- In-memory timer state paired with the persistent store, for the
tick-path completion method. -/
structure TimerState where
  duration : ℤ
  remaining : ℤ
  isRunning : Bool
  store : Option TimerSnapshot
deriving DecidableEq

/-- `saveState()`: write the snapshot of the current fields. -/
def saveState (t : TimerState) (now : ℤ) : TimerState :=
  { t with store := some ⟨t.remaining, t.isRunning, now, t.duration⟩ }

/-- `pause()`: no-op unless running; otherwise stop and persist. -/
def pause (t : TimerState) (now : ℤ) : TimerState :=
  if t.isRunning = false then t
  else saveState { t with isRunning := false } now

/-- `complete()`, the tick-path completion: pause, zero the remaining
time, fire `onComplete` and the beep, and clear the persisted state.
Returns the new state and whether the completion callbacks fired (always). -/
def complete (t : TimerState) (now : ℤ) : TimerState × Bool :=
  let t1 := pause t now
  let t2 := { t1 with remaining := 0 }
  ({ t2 with store := none }, true)

/-! ## Rounding lemmas -/

/-- `Math.round` overshoots by at most half. -/
theorem jround_cast_le (q : ℚ) : (jround q : ℚ) ≤ q + 1/2 :=
  Int.floor_le _

/-- `Math.round` undershoots by strictly less than half. -/
theorem lt_jround_cast (q : ℚ) : q - 1/2 < (jround q : ℚ) := by
  have h := Int.lt_floor_add_one (q + 1/2)
  unfold jround
  linarith

/-- Whole-gram rounding error is at most half a gram. -/
theorem abs_jround_sub_le (q : ℚ) : |(jround q : ℚ) - q| ≤ 1/2 := by
  have h1 := jround_cast_le q
  have h2 := lt_jround_cast q
  rw [abs_le]
  constructor <;> linarith

/-- One-decimal rounding error is at most a twentieth of a gram. -/
theorem abs_jround1_sub_le (q : ℚ) : |jround1 q - q| ≤ 1/20 := by
  have h := abs_jround_sub_le (q * 10)
  have hq : jround1 q - q = ((jround (q * 10) : ℚ) - q * 10) / 10 := by
    unfold jround1
    ring
  rw [hq, abs_div, show |(10 : ℚ)| = 10 by norm_num]
  linarith

/-- `Math.round` is the identity on integers. -/
theorem jround_intCast (k : ℤ) : jround (k : ℚ) = k := by
  unfold jround
  rw [add_comm, Int.floor_add_int]
  norm_num

/-- Scaling a value of the form `k / c` back up and rounding recovers `k`. -/
theorem jround_scale {x : ℚ} {k : ℤ} {c : ℚ} (hc : c ≠ 0)
    (h : x = (k : ℚ) / c) : jround (x * c) = k := by
  rw [h, div_mul_cancel₀ _ hc]
  exact jround_intCast k

/-- `parseInt` of an integer's decimal string is that integer. -/
theorem ratTrunc_intCast (n : ℤ) : ratTrunc (n : ℚ) = n := by
  unfold ratTrunc
  rw [Rat.num_intCast, Rat.den_intCast]
  simp

/-- Splitting a quantity in two and rounding each part changes the rounded
total by at most one unit. -/
theorem jround_split (a b : ℚ) : |jround b + jround (a - b) - jround a| ≤ 1 := by
  have h1 := abs_jround_sub_le a
  have h2 := abs_jround_sub_le b
  have h3 := abs_jround_sub_le (a - b)
  rw [abs_le] at h1 h2 h3
  have hq : |((jround b + jround (a - b) - jround a : ℤ) : ℚ)| < 2 := by
    rw [abs_lt]
    push_cast
    constructor <;> linarith [h1.1, h1.2, h2.1, h2.2, h3.1, h3.2]
  rw [← Int.cast_abs] at hq
  have h2' : |jround b + jround (a - b) - jround a| < 2 := by exact_mod_cast hq
  omega

/-! ## Inputs used at concrete evaluation points -/

/-- The spec's worked single-stage example: 4 × 250 g balls, 65%
hydration, 2% salt, 0.3% yeast, no oil or sugar. -/
def exampleParams : RecipeParams :=
  { numBalls := 4, ballWeight := 250, hydration := 65/100, salt := 2/100
    yeast := 3/1000, oil := 0, sugar := 0, humidityAdjust := false
    usePreFerment := false, preFermentType := PreFermentType.poolish
    preFermentFlourPercent := 25/100, bigaHydration := 55/100 }

/-- The example recipe with a non-positive `numBalls`: input the calculator
should reject but does not. -/
def negBallsParams : RecipeParams :=
  { exampleParams with numBalls := -1 }

/-- A biga two-stage recipe with an explicitly chosen `bigaHydration` of
0.70 (every field a representable precision step). -/
def bigaShareParams : RecipeParams :=
  { numBalls := 4, ballWeight := 250, hydration := 65/100, salt := 2/100
    yeast := 3/1000, oil := 0, sugar := 0, humidityAdjust := false
    usePreFerment := true, preFermentType := PreFermentType.biga
    preFermentFlourPercent := 25/100, bigaHydration := 7/10 }

/-! ## Claim theorems -/

/-- C1 (code bug): the spec requires `calculate` to fail with
`InvalidParameters` on non-positive `numBalls`/`ballWeight` or a
non-positive flour denominator, and never to return negative weights
silently.  The source has no such guard: `calculate` is total, and at
`numBalls = -1` (all other inputs the worked example's) it silently
returns negative flour (−149 g) and water (−97 g). -/
theorem c1_calculate_unguarded :
    (calculate negBallsParams).singleFlour = some (-149) ∧
    (calculate negBallsParams).singleWater = some (-97) ∧
    (-149 : ℤ) < 0 ∧ (-97 : ℤ) < 0 := by
  refine ⟨?_, ?_, by norm_num, by norm_num⟩ <;>
    norm_num [calculate, negBallsParams, exampleParams, CalcResult.singleFlour,
      CalcResult.singleWater, flourWeight, waterWeight, totalDoughWeight,
      flourDenominator, effectiveHydration, jround, jround1]

/-- C3 (code bug): loading a persisted running snapshot whose remaining
time has already elapsed (saved with 10 min left, loaded 20 min later)
zeroes the remaining time and fires the completion callback and beep — but
`loadState` never clears the `'emergencyTimer'` record, so the stale
`isRunning = true` snapshot survives (first conjunct: the store after the
load still holds it), and a later page load fires the completion again
(second conjunct).  The tick-path `complete()` by contrast does clear the
store (third conjunct, at the same state). -/
theorem c3_expired_snapshot_not_cleared :
    (loadState 7200000 (some ⟨600000, true, 0, 7200000⟩) 1200000 =
      { remaining := 0, duration := 7200000, isRunning := false
        pendingStart := false, firedOnComplete := true, playedBeep := true
        store := some ⟨600000, true, 0, 7200000⟩ }) ∧
    (loadState 7200000
      (loadState 7200000 (some ⟨600000, true, 0, 7200000⟩) 1200000).store
      2400000).firedOnComplete = true ∧
    (complete ⟨7200000, 0, false, some ⟨600000, true, 0, 7200000⟩⟩ 1200000).1.store
      = none := by
  decide

/-- C4: in every two-stage recipe, the pre-ferment receives all the yeast
(the full-batch flour times the yeast fraction, rounded to one decimal
place) and the final dough's yeast is exactly 0. -/
theorem c4_all_yeast_in_preferment (p : RecipeParams)
    (h : p.usePreFerment = true) :
    (calculate p).preFermentYeast = some (jround1 (flourWeight p * p.yeast)) ∧
    (calculate p).finalDoughYeast = some 0 := by
  simp [calculate, calculateWithPreFerment, h,
    CalcResult.preFermentYeast, CalcResult.finalDoughYeast]

/-- C4 witness: the yeast split at the concrete biga recipe. -/
theorem c4_all_yeast_in_preferment_witness :
    (calculate bigaShareParams).preFermentYeast
      = some (jround1 (flourWeight bigaShareParams * bigaShareParams.yeast)) ∧
    (calculate bigaShareParams).finalDoughYeast = some 0 :=
  c4_all_yeast_in_preferment bigaShareParams rfl

/-- The two-stage result spelled out: what `calculate` returns whenever
`usePreFerment` is set. -/
theorem calculate_twoStage (p : RecipeParams) (h : p.usePreFerment = true) :
    calculate p = CalcResult.twoStage
      { type := p.preFermentType
        flour := jround (flourWeight p * p.preFermentFlourPercent)
        water := jround (flourWeight p * p.preFermentFlourPercent
          * preFermentHydration p)
        yeast := jround1 (flourWeight p * p.yeast)
        hydrationPct := preFermentHydration p * 100
        flourPercentPct := p.preFermentFlourPercent * 100 }
      { flour := jround (flourWeight p - flourWeight p * p.preFermentFlourPercent)
        water := jround (waterWeight p - flourWeight p * p.preFermentFlourPercent
          * preFermentHydration p)
        salt := jround1 (flourWeight p * p.salt)
        yeast := 0
        oil := jround (flourWeight p * p.oil)
        sugar := jround (flourWeight p * p.sugar) }
      (jround (totalDoughWeight p)) := by
  simp [calculate, calculateWithPreFerment, h]

/-- C5: two-stage conservation — the rounded pre-ferment and final-dough
flours sum to the rounded total flour within 1 g, and likewise for water. -/
theorem c5_conservation (p : RecipeParams) (h : p.usePreFerment = true) :
    ∃ pf fd tw, calculate p = CalcResult.twoStage pf fd tw ∧
      |pf.flour + fd.flour - jround (flourWeight p)| ≤ 1 ∧
      |pf.water + fd.water - jround (waterWeight p)| ≤ 1 := by
  refine ⟨_, _, _, calculate_twoStage p h, ?_, ?_⟩
  · exact jround_split (flourWeight p) (flourWeight p * p.preFermentFlourPercent)
  · exact jround_split (waterWeight p)
      (flourWeight p * p.preFermentFlourPercent * preFermentHydration p)

/-- C5 witness: conservation at the concrete biga recipe. -/
theorem c5_conservation_witness :
    ∃ pf fd tw, calculate bigaShareParams = CalcResult.twoStage pf fd tw ∧
      |pf.flour + fd.flour - jround (flourWeight bigaShareParams)| ≤ 1 ∧
      |pf.water + fd.water - jround (waterWeight bigaShareParams)| ≤ 1 :=
  c5_conservation bigaShareParams rfl

/-- The single-stage result spelled out: what `calculate` returns whenever
`usePreFerment` is not set. -/
theorem calculate_single (p : RecipeParams) (h : p.usePreFerment = false) :
    calculate p = CalcResult.single
      { flour := jround (flourWeight p)
        water := jround (waterWeight p)
        salt := jround1 (flourWeight p * p.salt)
        yeast := jround1 (flourWeight p * p.yeast)
        oil := jround (flourWeight p * p.oil)
        sugar := jround (flourWeight p * p.sugar) }
      (jround (totalDoughWeight p)) := by
  simp [calculate, h]

/-- C6: for valid parameters (positive ball count and weight, positive
flour denominator) the six rounded single-stage ingredient weights sum to
`numBalls * ballWeight` within 2.1 g (half a rounding unit per
ingredient: four whole-gram ingredients and two tenth-gram ones). -/
theorem c6_total_weight (p : RecipeParams)
    (hpf : p.usePreFerment = false)
    (hden : 0 < flourDenominator p)
    (_hballs : 0 < p.numBalls) (_hweight : 0 < p.ballWeight) :
    ∃ ing tw, calculate p = CalcResult.single ing tw ∧
      |(ing.flour : ℚ) + ing.water + ing.salt + ing.yeast + ing.oil + ing.sugar
        - p.numBalls * p.ballWeight| ≤ 21/10 := by
  refine ⟨_, _, calculate_single p hpf, ?_⟩
  have hsum : flourWeight p + waterWeight p + flourWeight p * p.salt
      + flourWeight p * p.yeast + flourWeight p * p.oil
      + flourWeight p * p.sugar = p.numBalls * p.ballWeight := by
    have hmul : flourWeight p * flourDenominator p = totalDoughWeight p :=
      div_mul_cancel₀ _ (ne_of_gt hden)
    unfold flourDenominator totalDoughWeight at hmul
    unfold waterWeight
    linear_combination hmul
  have b1 := abs_jround_sub_le (flourWeight p)
  have b2 := abs_jround_sub_le (waterWeight p)
  have b3 := abs_jround1_sub_le (flourWeight p * p.salt)
  have b4 := abs_jround1_sub_le (flourWeight p * p.yeast)
  have b5 := abs_jround_sub_le (flourWeight p * p.oil)
  have b6 := abs_jround_sub_le (flourWeight p * p.sugar)
  rw [abs_le] at b1 b2 b3 b4 b5 b6 ⊢
  constructor <;>
    · simp only
      linarith [b1.1, b1.2, b2.1, b2.2, b3.1, b3.2, b4.1, b4.2, b5.1, b5.2,
        b6.1, b6.2, hsum]

/-- C6 witness: the bound at the worked example (sum 598+389+12+1.8 =
1000.8, within 2.1 of the 1000 g total). -/
theorem c6_total_weight_witness :
    (0 < flourDenominator exampleParams ∧ (0:ℚ) < 4 ∧ (0:ℚ) < 250) ∧
    ∃ ing tw, calculate exampleParams = CalcResult.single ing tw ∧
      |(ing.flour : ℚ) + ing.water + ing.salt + ing.yeast + ing.oil + ing.sugar
        - exampleParams.numBalls * exampleParams.ballWeight| ≤ 21/10 :=
  ⟨⟨by norm_num [flourDenominator, effectiveHydration, exampleParams],
    by norm_num, by norm_num⟩,
   c6_total_weight exampleParams rfl
     (by norm_num [flourDenominator, effectiveHydration, exampleParams])
     (by norm_num [exampleParams]) (by norm_num [exampleParams])⟩

/-- C7: the asymmetric rounding policy.  In every result, flour, water,
oil and sugar are the exact unrounded values rounded to the nearest whole
gram and salt and yeast are rounded to one decimal place (both stages);
and at the worked example (4 × 250 g, 65% hydration, 2% salt, 0.3% yeast)
the result is flour 598 g, water 389 g, salt 12.0 g, yeast 1.8 g. -/
theorem c7_rounding_policy :
    (∀ p : RecipeParams, p.usePreFerment = false →
      ∃ ing tw, calculate p = CalcResult.single ing tw ∧
        ing.flour = jround (flourWeight p) ∧
        ing.water = jround (waterWeight p) ∧
        ing.oil = jround (flourWeight p * p.oil) ∧
        ing.sugar = jround (flourWeight p * p.sugar) ∧
        ing.salt = jround1 (flourWeight p * p.salt) ∧
        ing.yeast = jround1 (flourWeight p * p.yeast)) ∧
    (∀ p : RecipeParams, p.usePreFerment = true →
      ∃ pf fd tw, calculate p = CalcResult.twoStage pf fd tw ∧
        pf.flour = jround (flourWeight p * p.preFermentFlourPercent) ∧
        pf.water = jround (flourWeight p * p.preFermentFlourPercent
          * preFermentHydration p) ∧
        pf.yeast = jround1 (flourWeight p * p.yeast) ∧
        fd.flour = jround (flourWeight p
          - flourWeight p * p.preFermentFlourPercent) ∧
        fd.water = jround (waterWeight p
          - flourWeight p * p.preFermentFlourPercent * preFermentHydration p) ∧
        fd.oil = jround (flourWeight p * p.oil) ∧
        fd.sugar = jround (flourWeight p * p.sugar) ∧
        fd.salt = jround1 (flourWeight p * p.salt)) ∧
    calculate exampleParams
      = CalcResult.single ⟨598, 389, 12, 9/5, 0, 0⟩ 1000 := by
  refine ⟨fun p h => ?_, fun p h => ?_, ?_⟩
  · exact ⟨_, _, calculate_single p h, rfl, rfl, rfl, rfl, rfl, rfl⟩
  · exact ⟨_, _, _, calculate_twoStage p h, rfl, rfl, rfl, rfl, rfl, rfl,
      rfl, rfl⟩
  · norm_num [calculate, exampleParams, flourWeight, waterWeight,
      totalDoughWeight, flourDenominator, effectiveHydration, jround, jround1]

/-- C7 witness: the single-stage rounding clause at the worked example. -/
theorem c7_rounding_policy_witness :
    ∃ ing tw, calculate exampleParams = CalcResult.single ing tw ∧
      ing.flour = jround (flourWeight exampleParams) ∧
      ing.water = jround (waterWeight exampleParams) ∧
      ing.oil = jround (flourWeight exampleParams * exampleParams.oil) ∧
      ing.sugar = jround (flourWeight exampleParams * exampleParams.sugar) ∧
      ing.salt = jround1 (flourWeight exampleParams * exampleParams.salt) ∧
      ing.yeast = jround1 (flourWeight exampleParams * exampleParams.yeast) :=
  c7_rounding_policy.1 exampleParams rfl

/-- C8: the pre-ferment hydration is exactly 100% for poolish regardless
of every other parameter, and exactly `bigaHydration` for biga; the
pre-ferment water is the pre-ferment flour times that hydration (the
result's `hydration` field carries the percentage, ×100). -/
theorem c8_preferment_hydration (p : RecipeParams)
    (h : p.usePreFerment = true) :
    ∃ pf fd tw, calculate p = CalcResult.twoStage pf fd tw ∧
      pf.hydrationPct = preFermentHydration p * 100 ∧
      (p.preFermentType = PreFermentType.poolish → preFermentHydration p = 1) ∧
      (p.preFermentType = PreFermentType.biga →
        preFermentHydration p = p.bigaHydration) ∧
      pf.water = jround (flourWeight p * p.preFermentFlourPercent
        * preFermentHydration p) := by
  refine ⟨_, _, _, calculate_twoStage p h, rfl, ?_, ?_, rfl⟩
  · intro hp
    simp [preFermentHydration, hp]
  · intro hb
    simp [preFermentHydration, hb]

/-- C8 witness: at the concrete biga recipe (hydration 0.70). -/
theorem c8_preferment_hydration_witness :
    ∃ pf fd tw, calculate bigaShareParams = CalcResult.twoStage pf fd tw ∧
      pf.hydrationPct = preFermentHydration bigaShareParams * 100 ∧
      (bigaShareParams.preFermentType = PreFermentType.poolish →
        preFermentHydration bigaShareParams = 1) ∧
      (bigaShareParams.preFermentType = PreFermentType.biga →
        preFermentHydration bigaShareParams = bigaShareParams.bigaHydration) ∧
      pf.water = jround (flourWeight bigaShareParams
        * bigaShareParams.preFermentFlourPercent
        * preFermentHydration bigaShareParams) :=
  c8_preferment_hydration bigaShareParams rfl

/-- The claimed behavior does hold on every id outside both the catalog
and `Object.prototype`'s property names: the lookup is `undefined` and the
custom fallback is returned. -/
theorem getStyleDefaults_fallback (id : String)
    (hown : id ∉ getStyleIds) (hproto : id ∉ objectPrototypeKeys) :
    getStyleById id = StyleLookup.undef ∧
    getStyleDefaults id = DefaultsResult.defaults customStyle.defaults := by
  simp only [getStyleIds, List.mem_cons, List.not_mem_nil, or_false,
    not_or] at hown
  obtain ⟨h1, h2, h3, h4, h5, h6, h7⟩ := hown
  have hby : getStyleById id = StyleLookup.undef := by
    simp [getStyleById, ownStyle, h1, h2, h3, h4, h5, h6, h7, hproto]
  exact ⟨hby, by simp [getStyleDefaults, hby]⟩

/-- And each catalog id resolves to its own preset's defaults. -/
theorem getStyleDefaults_catalog (id : String) (hid : id ∈ getStyleIds) :
    ∃ s, getStyleById id = StyleLookup.preset s ∧ s.id = id ∧
      getStyleDefaults id = DefaultsResult.defaults s.defaults := by
  simp only [getStyleIds, List.mem_cons, List.not_mem_nil, or_false] at hid
  rcases hid with h | h | h | h | h | h | h <;> subst h <;>
    exact ⟨_, rfl, rfl, rfl⟩

/-- C9 (code bug): the claim — and the spec's `UnknownStyleId` rule — says
every id string outside the seven catalog styles resolves to the `custom`
preset's defaults, and `getStyleById` "returns the preset or an absent
value" (its documented `PizzaStylePreset|undefined` type).  But the
bracket read `PIZZA_STYLES[id]` reaches `Object.prototype`: at
`id = "toString"` — not a catalog style — the lookup finds the truthy
inherited function, so `getStyleById` returns neither a preset nor an
absent value, and `getStyleDefaults` spreads its `undefined` `defaults`
into an empty object instead of the custom fallback.  (For an ordinary
unknown id such as `"margherita"` the claimed fallback does fire, and a
catalog id such as `"neapolitan"` yields its own defaults.) -/
theorem c9_prototype_chain_leak :
    "toString" ∉ getStyleIds ∧
    getStyleById "toString" = StyleLookup.inherited ∧
    getStyleDefaults "toString" = DefaultsResult.emptyObj ∧
    getStyleDefaults "toString" ≠ DefaultsResult.defaults customStyle.defaults ∧
    getStyleById "__proto__" = StyleLookup.inherited ∧
    getStyleDefaults "hasOwnProperty" = DefaultsResult.emptyObj ∧
    getStyleDefaults "margherita" = DefaultsResult.defaults customStyle.defaults ∧
    getStyleDefaults "neapolitan"
      = DefaultsResult.defaults neapolitanStyle.defaults :=
  ⟨by decide, rfl, rfl, fun h => DefaultsResult.noConfusion h, rfl, rfl, rfl, rfl⟩

/-- C10: `decodeRecipe` returns a recipe object for every string — whether
or not it parses as a URL, since the query-string fallback constructor
never fails — and for every `URLSearchParams`; it returns `null` exactly
for inputs that are neither. -/
theorem c10_decode_total :
    (∀ s, ∃ r, decodeRecipe (DecodeInput.str s) = some r) ∧
    (∀ ps, ∃ r, decodeRecipe (DecodeInput.searchParams ps) = some r) ∧
    decodeRecipe DecodeInput.other = none := by
  refine ⟨fun s => ?_, fun ps => ⟨_, rfl⟩, rfl⟩
  cases h : parseAsURL s with
  | some ps => exact ⟨decodeRecipeParams ps, by simp [decodeRecipe, h]⟩
  | none =>
    exact ⟨decodeRecipeParams (parseQueryString s), by simp [decodeRecipe, h]⟩

/-- C10 witness: a garbage string still decodes to an object, and a
non-string, non-`URLSearchParams` input decodes to `null`. -/
theorem c10_decode_total_witness :
    (∃ r, decodeRecipe (DecodeInput.str "definitely not a url %%&&==") = some r) ∧
    decodeRecipe DecodeInput.other = none :=
  ⟨c10_decode_total.1 "definitely not a url %%&&==", c10_decode_total.2.2⟩

/-! ## The round-trip contract (C2) -/

/-- The fields of `p` that `decodeRecipe(encodeRecipe(p))` recovers,
reading absent optional keys at their unset baseline (oil/sugar zero,
flags false), and the pre-ferment keys when `usePreFerment` is set —
everything the claim asks for except `bigaHydration`. -/
def roundTripCommon (p : RecipeParams) : Prop :=
  ((decodeRecipeParams (encodeRecipe p)).numBalls.map (fun k => (k : ℚ)))
      = some p.numBalls ∧
  ((decodeRecipeParams (encodeRecipe p)).ballWeight.map (fun k => (k : ℚ)))
      = some p.ballWeight ∧
  (decodeRecipeParams (encodeRecipe p)).hydration = some p.hydration ∧
  (decodeRecipeParams (encodeRecipe p)).salt = some p.salt ∧
  (decodeRecipeParams (encodeRecipe p)).yeast = some p.yeast ∧
  (decodeRecipeParams (encodeRecipe p)).oil.getD 0 = p.oil ∧
  (decodeRecipeParams (encodeRecipe p)).sugar.getD 0 = p.sugar ∧
  (decodeRecipeParams (encodeRecipe p)).usePreFerment = p.usePreFerment ∧
  (decodeRecipeParams (encodeRecipe p)).humidityAdjust = p.humidityAdjust ∧
  (p.usePreFerment = true →
    (decodeRecipeParams (encodeRecipe p)).preFermentTypeStr
      = some p.preFermentType.toStr) ∧
  (p.usePreFerment = true →
    (decodeRecipeParams (encodeRecipe p)).preFermentFlourPercent
      = some p.preFermentFlourPercent)

/-- C2 as claimed: every field of `p` is reproduced — including
`bigaHydration` whenever it is in play (a biga pre-ferment recipe). -/
def roundTripEveryField (p : RecipeParams) : Prop :=
  roundTripCommon p ∧
  (p.usePreFerment = true → p.preFermentType = PreFermentType.biga →
    (decodeRecipeParams (encodeRecipe p)).bigaHydration = some p.bigaHydration)

/-- C2 counterexample: a biga recipe with `bigaHydration = 0.70`, every
field on its documented precision grid.  No URL key carries
`bigaHydration` (`PARAM_MAP` has none), so the decoded object's
`bigaHydration` is absent and the claimed full round-trip fails. -/
theorem c2_roundtrip_counterexample :
    bigaShareParams.usePreFerment = true ∧
    bigaShareParams.preFermentType = PreFermentType.biga ∧
    bigaShareParams.hydration = (65 : ℚ) / 100 ∧
    bigaShareParams.salt = (20 : ℚ) / 1000 ∧
    bigaShareParams.yeast = (3 : ℚ) / 1000 ∧
    bigaShareParams.preFermentFlourPercent = (25 : ℚ) / 100 ∧
    bigaShareParams.bigaHydration = (70 : ℚ) / 100 ∧
    (decodeRecipeParams (encodeRecipe bigaShareParams)).bigaHydration = none ∧
    ¬ roundTripEveryField bigaShareParams := by
  refine ⟨rfl, rfl, by norm_num [bigaShareParams], by norm_num [bigaShareParams],
    by norm_num [bigaShareParams], by norm_num [bigaShareParams],
    by norm_num [bigaShareParams], rfl, ?_⟩
  intro hclaim
  have h := hclaim.2 rfl rfl
  rw [show (decodeRecipeParams (encodeRecipe bigaShareParams)).bigaHydration
      = none from rfl] at h
  exact Option.noConfusion h

/-- C2 amended: for every `RecipeParameters` on the supported precision
grid (integer ball count and gram weight; hydration a whole percent; salt
and yeast whole tenth-percents; oil, sugar and pre-ferment flour percent
whole percents, the former two non-negative), decoding the encoded recipe
reproduces every field — except `bigaHydration`, which is never encoded
and always decodes to absent. -/
theorem c2_roundtrip_amended (p : RecipeParams)
    (hn : ∃ n : ℤ, p.numBalls = (n : ℚ))
    (hw : ∃ w : ℤ, p.ballWeight = (w : ℚ))
    (hh : ∃ k : ℤ, p.hydration = (k : ℚ) / 100)
    (hs : ∃ k : ℤ, p.salt = (k : ℚ) / 1000)
    (hy : ∃ k : ℤ, p.yeast = (k : ℚ) / 1000)
    (ho : ∃ k : ℕ, p.oil = (k : ℚ) / 100)
    (hsu : ∃ k : ℕ, p.sugar = (k : ℚ) / 100)
    (hpfp : ∃ k : ℤ, p.preFermentFlourPercent = (k : ℚ) / 100) :
    roundTripCommon p ∧
    (decodeRecipeParams (encodeRecipe p)).bigaHydration = none := by
  obtain ⟨n, hn⟩ := hn
  obtain ⟨w, hw⟩ := hw
  obtain ⟨kh, hh⟩ := hh
  obtain ⟨ks, hs⟩ := hs
  obtain ⟨ky, hy⟩ := hy
  obtain ⟨ko, ho⟩ := ho
  obtain ⟨ku, hsu⟩ := hsu
  obtain ⟨kf, hpfp⟩ := hpfp
  have h100 : (100 : ℚ) ≠ 0 := by norm_num
  have h1000 : (1000 : ℚ) ≠ 0 := by norm_num
  refine ⟨⟨?_, ?_, ?_, ?_, ?_, ?_, ?_, ?_, ?_, ?_, ?_⟩, rfl⟩
  · show (some (ratTrunc p.numBalls)).map (fun k => (k : ℚ)) = some p.numBalls
    rw [hn, ratTrunc_intCast]
    rfl
  · show (some (ratTrunc p.ballWeight)).map (fun k => (k : ℚ)) = some p.ballWeight
    rw [hw, ratTrunc_intCast]
    rfl
  · show (some (jround (p.hydration * 100))).map (fun k => (k : ℚ) / 100)
        = some p.hydration
    rw [jround_scale h100 hh, hh]
    rfl
  · show (some (jround (p.salt * 1000))).map (fun k => (k : ℚ) / 1000)
        = some p.salt
    rw [jround_scale h1000 hs, hs]
    rfl
  · show (some (jround (p.yeast * 1000))).map (fun k => (k : ℚ) / 1000)
        = some p.yeast
    rw [jround_scale h1000 hy, hy]
    rfl
  · rcases Nat.eq_zero_or_pos ko with h0 | hpos
    · subst h0
      have hz : p.oil = 0 := by rw [ho]; norm_num
      show ((if 0 < p.oil then some (jround (p.oil * 100)) else none).map
        (fun k => (k : ℚ) / 100)).getD 0 = p.oil
      rw [hz]
      norm_num
    · have ho' : p.oil = ((ko : ℤ) : ℚ) / 100 := by rw [ho]; push_cast; ring
      have hop : (0 : ℚ) < p.oil := by
        rw [ho']
        have : (0 : ℚ) < ((ko : ℤ) : ℚ) := by exact_mod_cast hpos
        exact div_pos this (by norm_num)
      show ((if 0 < p.oil then some (jround (p.oil * 100)) else none).map
        (fun k => (k : ℚ) / 100)).getD 0 = p.oil
      rw [if_pos hop, jround_scale h100 ho', ho']
      rfl
  · rcases Nat.eq_zero_or_pos ku with h0 | hpos
    · subst h0
      have hz : p.sugar = 0 := by rw [hsu]; norm_num
      show ((if 0 < p.sugar then some (jround (p.sugar * 100)) else none).map
        (fun k => (k : ℚ) / 100)).getD 0 = p.sugar
      rw [hz]
      norm_num
    · have hsu' : p.sugar = ((ku : ℤ) : ℚ) / 100 := by rw [hsu]; push_cast; ring
      have hup : (0 : ℚ) < p.sugar := by
        rw [hsu']
        have : (0 : ℚ) < ((ku : ℤ) : ℚ) := by exact_mod_cast hpos
        exact div_pos this (by norm_num)
      show ((if 0 < p.sugar then some (jround (p.sugar * 100)) else none).map
        (fun k => (k : ℚ) / 100)).getD 0 = p.sugar
      rw [if_pos hup, jround_scale h100 hsu', hsu']
      rfl
  · cases hu : p.usePreFerment <;>
      simp [decodeRecipeParams, encodeRecipe, hu]
  · cases hha : p.humidityAdjust <;>
      simp [decodeRecipeParams, encodeRecipe, hha]
  · intro hu
    cases ht : p.preFermentType <;>
      simp [decodeRecipeParams, encodeRecipe, hu, ht, pftOrPoolish,
        PreFermentType.toStr]
  · intro hu
    have hj : jround ((kf : ℚ) / 100 * 100) = kf := by
      rw [div_mul_cancel₀ _ h100]
      exact jround_intCast kf
    simp [decodeRecipeParams, encodeRecipe, hu, hpfp, hj, jround_intCast]

/-- C2 amended witness: the amended round-trip, instantiated at the
concrete biga recipe. -/
theorem c2_roundtrip_amended_witness :
    (∃ n : ℤ, bigaShareParams.numBalls = (n : ℚ)) ∧
    (∃ w : ℤ, bigaShareParams.ballWeight = (w : ℚ)) ∧
    (∃ k : ℤ, bigaShareParams.hydration = (k : ℚ) / 100) ∧
    (∃ k : ℤ, bigaShareParams.salt = (k : ℚ) / 1000) ∧
    (∃ k : ℤ, bigaShareParams.yeast = (k : ℚ) / 1000) ∧
    (∃ k : ℕ, bigaShareParams.oil = (k : ℚ) / 100) ∧
    (∃ k : ℕ, bigaShareParams.sugar = (k : ℚ) / 100) ∧
    (∃ k : ℤ, bigaShareParams.preFermentFlourPercent = (k : ℚ) / 100) ∧
    (roundTripCommon bigaShareParams ∧
      (decodeRecipeParams (encodeRecipe bigaShareParams)).bigaHydration
        = none) :=
  ⟨⟨4, by norm_num [bigaShareParams]⟩, ⟨250, by norm_num [bigaShareParams]⟩,
   ⟨65, by norm_num [bigaShareParams]⟩, ⟨20, by norm_num [bigaShareParams]⟩,
   ⟨3, by norm_num [bigaShareParams]⟩, ⟨0, by norm_num [bigaShareParams]⟩,
   ⟨0, by norm_num [bigaShareParams]⟩, ⟨25, by norm_num [bigaShareParams]⟩,
   c2_roundtrip_amended bigaShareParams
     ⟨4, by norm_num [bigaShareParams]⟩ ⟨250, by norm_num [bigaShareParams]⟩
     ⟨65, by norm_num [bigaShareParams]⟩ ⟨20, by norm_num [bigaShareParams]⟩
     ⟨3, by norm_num [bigaShareParams]⟩ ⟨0, by norm_num [bigaShareParams]⟩
     ⟨0, by norm_num [bigaShareParams]⟩ ⟨25, by norm_num [bigaShareParams]⟩⟩

end PizzaDough
